import Mathlib

/-!
Shallow embedding of the Tixel terrain-generation engine (src/tixel.py).

Tile types are strings; the value "0" denotes EMPTY.  Probabilities and the
uniform draws feeding them are modelled as rationals.  A grid is a pair of
dimensions together with a total cell function; the Python code only ever
reads cells in bounds on the paths verified here.  A Python dict is modelled
as an association list in insertion order; dictionary lookup that can raise
KeyError is modelled with Option.
-/

/-- A rectangular grid of cells (numpy array of shape (width, height)),
indexed `cell i j` with `i < width`, `j < height`. -/
structure GridOf (α : Type) where
  width : Nat
  height : Nat
  cell : Nat → Nat → α

abbrev Grid := GridOf String

abbrev QGrid := GridOf ℚ

abbrev ZGrid := GridOf Int

/-- Functional update of one cell of a grid. -/
def GridOf.set {α : Type} (g : GridOf α) (i j : Nat) (v : α) : GridOf α :=
  ⟨g.width, g.height, fun a b => if a = i ∧ b = j then v else g.cell a b⟩

/-- Row-major list of all cell coordinates of a `width × height` grid,
mirroring the nested `for i in range(..): for j in range(..)` loops. -/
def allCoords (w h : Nat) : List (Nat × Nat) :=
  (List.range w).flatMap (fun i => (List.range h).map (fun j => (i, j)))

/-- Cumulative sums of `_accumulate_probabilities` (src/tixel.py:1058),
carried out in the insertion order of the mapping. -/
def accumulate_aux (acc : ℚ) : List (String × ℚ) → List (String × ℚ)
  | [] => []
  | (k, v) :: rest => (k, acc + v) :: accumulate_aux (acc + v) rest

/-- Embedding of `_accumulate_probabilities` (src/tixel.py:1058-1077). -/
def accumulate_probabilities (probs : List (String × ℚ)) : List (String × ℚ) :=
  accumulate_aux 0 probs

/-- Embedding of `_assign_tile` (src/tixel.py:1080-1092): the first key whose
cumulative sum exceeds the draw; `none` when the loop falls through. -/
def assign_tile (number : ℚ) : List (String × ℚ) → Option String
  | [] => none
  | (k, v) :: rest => if number < v then some k else assign_tile number rest

/-- Sum of the raw weights of a probability mapping. -/
def sum_weights (probs : List (String × ℚ)) : ℚ :=
  (probs.map Prod.snd).sum

/-- Python dictionary lookup `d[k]`: the value stored at key `k`, `none`
modelling a KeyError. -/
def dlookup (d : List (String × ℚ)) (k : String) : Option ℚ :=
  match d with
  | [] => none
  | kv :: rest => if kv.1 = k then some kv.2 else dlookup rest k

/-- The fallback scan of `Terrain.generate_base_layer` (src/tixel.py:215-219):
starting from candidate `cand`, replace it by each scanned key whose raw
weight is strictly greater than the candidate's.  The scanned key's weight
`tile_probabilities[key]` is the pair's own value (dictionary keys are
unique); the candidate's weight is re-read from the dictionary `d` on every
comparison, so a candidate that is not a key of `d` raises a KeyError
(`none`). -/
def fallback_loop (d : List (String × ℚ)) : List (String × ℚ) → String → Option String
  | [], cand => some cand
  | (k, v) :: rest, cand =>
      match dlookup d cand with
      | some vc =>
          if vc < v then fallback_loop d rest k else fallback_loop d rest cand
      | none => none

/-- The whole fallback of src/tixel.py:214-219: scan the mapping starting
from the hard-coded candidate key "1". -/
def most_probable_fallback (d : List (String × ℚ)) : Option String :=
  fallback_loop d d "1"

/-- One cell of the base-layer generation loop (src/tixel.py:209-219):
`_assign_tile` on the accumulated probabilities, falling back to the
most-probable scan when it returns `None`. -/
def assign_cell (draw : ℚ) (probs : List (String × ℚ)) : Option String :=
  match assign_tile draw (accumulate_probabilities probs) with
  | some k => some k
  | none => most_probable_fallback probs

/-- Restatement of the specification's fallback rule in the specification's
own words, for comparison with `assign_cell`: the TileType with the highest
raw weight, ties broken so that the first maximum encountered in iteration
order wins. -/
def spec_highest_weight_first (probs : List (String × ℚ)) : Option String :=
  (probs.find? (fun kv => probs.all (fun kv2 => kv2.2 ≤ kv.2))).map Prod.fst

/-- Embedding of `_get_neighbor_tiles` (src/tixel.py:1114-1193): the values
of the up-to-8 grid-adjacent cells of `(i, j)` in a `d0 × d1` grid, clipped
at borders, in the source's exact per-case ordering. -/
def get_neighbor_vals {α : Type} (d0 d1 : Nat) (cell : Nat → Nat → α) (i j : Nat) : List α :=
  if i = 0 then
    if j = 0 then
      [cell i (j+1), cell (i+1) j, cell (i+1) (j+1)]
    else if j = d1 - 1 then
      [cell i (j-1), cell (i+1) j, cell (i+1) (j-1)]
    else
      [cell i (j-1), cell (i+1) j, cell (i+1) (j-1), cell (i+1) (j+1), cell i (j+1)]
  else if i = d0 - 1 then
    if j = 0 then
      [cell i (j+1), cell (i-1) j, cell (i-1) (j+1)]
    else if j = d1 - 1 then
      [cell i (j-1), cell (i-1) j, cell (i-1) (j-1)]
    else
      [cell i (j-1), cell (i-1) j, cell (i-1) (j-1), cell (i-1) (j+1), cell i (j+1)]
  else if j = 0 then
    [cell (i-1) j, cell (i-1) (j+1), cell i (j+1), cell (i+1) (j+1), cell (i+1) j]
  else if j = d1 - 1 then
    [cell (i-1) j, cell (i-1) (j-1), cell i (j-1), cell (i+1) (j-1), cell (i+1) j]
  else
    [cell i (j-1), cell (i+1) (j-1), cell (i+1) j, cell (i+1) (j+1), cell i (j+1),
     cell (i-1) (j+1), cell (i-1) j, cell (i-1) (j-1)]

/-- First-occurrence deduplication, modelling the key set (in insertion
order) of the Python dict comprehension over a possibly repeating list. -/
def firstDedupAux : List String → List String → List String
  | _, [] => []
  | seen, t :: rest =>
      if t ∈ seen then firstDedupAux seen rest
      else t :: firstDedupAux (t :: seen) rest

def firstDedup (l : List String) : List String :=
  firstDedupAux [] l

/-- The leader-selection loop of `_set_to_neighbor_type`
(src/tixel.py:1215-1224): scan the keys, replacing the current leader when a
key's count is strictly greater, and on an equal count replacing it exactly
when the next random draw exceeds 0.5 (one draw per tie, modelled by the
boolean stream `flips` indexed by the running counter `n`). -/
def pickMostFrequent (count : String → Nat) (flips : Nat → Bool) :
    List String → String → Nat → String × Nat
  | [], c, n => (c, n)
  | k :: rest, c, n =>
      if count c < count k then pickMostFrequent count flips rest k n
      else if count k = count c then
        if flips n then pickMostFrequent count flips rest k (n + 1)
        else pickMostFrequent count flips rest c (n + 1)
      else pickMostFrequent count flips rest c n

/-- Embedding of `_set_to_neighbor_type` (src/tixel.py:1196-1226): count the
neighbor values over the universe of known tile types (every known type
starts at count 0) and return the winner of the leader scan together with
the advanced flip counter.  The dictionary update `tile_count[neighbor] += 1`
assumes every neighbor value occurs among the known tile types, as is
guaranteed on all the paths considered here. -/
def set_to_neighbor_type (neighbors : List String) (tiles : List String)
    (flips : Nat → Bool) (n : Nat) : String × Nat :=
  let keys := firstDedup tiles
  pickMostFrequent (fun k => neighbors.count k) flips keys (keys.headD "0") n

/-- One visit of the smoothing loop body (src/tixel.py:245-250): gather the
neighbors of the visited cell from the current (partially updated) grid and
replace the cell's value by the majority vote. -/
def smooth_step (tiles : List String) (flips : Nat → Bool)
    (st : Grid × Nat) (c : Nat × Nat) : Grid × Nat :=
  let nb := get_neighbor_vals st.1.width st.1.height st.1.cell c.1 c.2
  let r := set_to_neighbor_type nb tiles flips st.2
  (st.1.set c.1 c.2 r.1, r.2)

/-- One full smoothing pass of `Terrain.smooth_base_layer`
(src/tixel.py:241-250): visit the coordinates in the given order, with
in-place updates visible to later visits of the same pass. -/
def smoothPass (g : Grid) (tiles : List String) (order : List (Nat × Nat))
    (flips : Nat → Bool) : Grid × Nat :=
  order.foldl (smooth_step tiles flips) (g, 0)

/-- Truncation toward zero of a rational, modelling `np.trunc` followed by
`int(...)` on the (exactly represented) value. -/
def pytrunc (q : ℚ) : Int :=
  Int.tdiv q.num (q.den : Int)

/-- Apply `f` repeatedly, modelling `for _ in range(n): state = f(state)`. -/
def iterateN {α : Type} (f : α → α) : Nat → α → α
  | 0, a => a
  | n + 1, a => iterateN f n (f a)

/-- One update of the diffusion loop body of `_generate_heightmap`
(src/tixel.py:1256-1267) at cell `(i, j)`: a cell at 0 is skipped, any other
cell is set to the arithmetic mean of itself and its neighbors, read from
the current (partially updated) grid. -/
def diffuse_cell (g : QGrid) (i j : Nat) : QGrid :=
  if g.cell i j = 0 then g
  else
    let values := get_neighbor_vals g.width g.height g.cell i j ++ [g.cell i j]
    g.set i j (values.sum / (values.length : ℚ))

/-- One diffusion iteration: every cell visited once, in fixed row-major
order, with in-place updates visible to later visits. -/
def diffuse_pass (g : QGrid) : QGrid :=
  (allCoords g.width g.height).foldl (fun cur c => diffuse_cell cur c.1 c.2) g

/-- Embedding of `_generate_heightmap` (src/tixel.py:1229-1270): seed the
cells matching the elevation symbol with the elevation value, diffuse for
the given number of iterations, and truncate every value to an integer. -/
def generate_heightmap (terrain : Grid) (elevation_symbol : String)
    (elevation : Int) (iterations : Int) : ZGrid :=
  let seed : QGrid :=
    ⟨terrain.width, terrain.height,
     fun i j => if terrain.cell i j = elevation_symbol then (elevation : ℚ) else 0⟩
  let final := iterateN diffuse_pass iterations.toNat seed
  ⟨terrain.width, terrain.height, fun i j => pytrunc (final.cell i j)⟩

/-- Maximum of a nonempty list of integers (`np.max`); 0 on the empty list,
on which `np.max` is an error. -/
def listMaxZ : List Int → Int
  | [] => 0
  | [x] => x
  | x :: y :: rest => max x (listMaxZ (y :: rest))

/-- All cells of an integer grid, row-major. -/
def cellsZ (g : ZGrid) : List Int :=
  (allCoords g.width g.height).map (fun c => g.cell c.1 c.2)

/-- Embedding of `int(np.max(heightmap))` (src/tixel.py:289). -/
def gridMaxZ (g : ZGrid) : Int :=
  listMaxZ (cellsZ g)

/-- A materialized tile instance (the `Tile` objects of src/tixel.py), kept
to the fields the terrain engine reads: a unique object identity, the tile
type, the grid index, and the 1-based elevation layer. -/
structure PyTile where
  id : Nat
  tile_type : String
  index : Nat × Nat
  elevation : Int
deriving DecidableEq

/-- The mutable state of a `Terrain` object (src/tixel.py:159-184), kept to
the fields the terrain engine reads and writes.  Rendering-only fields
(zoom, offset, images, masks) are omitted. -/
structure TerrainState where
  terrain_width : Int
  terrain_height : Int
  tile_width : Int
  tile_height : Int
  tile_thickness : Int
  elevation_symbol : Option String
  elevation : Int
  elevation_iterations : Int
  base_layer : Grid
  heightmap : Option ZGrid
  terrain : List Grid
  tiles : List PyTile
  selected_tiles : List PyTile
  pointed_tile : Option PyTile

def grid_default : Grid :=
  ⟨0, 0, fun _ _ => "0"⟩

/-- Embedding of `Terrain.generate_tiles` (src/tixel.py:304-349): clear the
tile list and the selection, then materialize one instance per non-EMPTY
cell of every layer, with elevation `i + 1` for layer index `i`.  Screen
coordinates are rendering state and are not modelled. -/
def generate_tiles (s : TerrainState) : TerrainState :=
  let w := s.terrain_width.toNat
  let h := s.terrain_height.toNat
  let ts := (List.range s.terrain.length).flatMap (fun i =>
    (allCoords w h).filterMap (fun c =>
      let ty := (s.terrain.getD i grid_default).cell c.1 c.2
      if ty = "0" then none
      else some ⟨(i * w + c.1) * h + c.2, ty, c, (i : Int) + 1⟩))
  { s with tiles := ts, selected_tiles := [] }

/-- Whether the per-cell assignment of `Terrain.generate_base_layer`
succeeds at every cell of a `w × h` grid. -/
def base_cells_ok (w h : Nat) (probs : List (String × ℚ))
    (draws : Nat → Nat → ℚ) : Prop :=
  ∀ i, i < w → ∀ j, j < h → (assign_cell (draws i j) probs).isSome = true

instance (w h : Nat) (probs : List (String × ℚ)) (draws : Nat → Nat → ℚ) :
    Decidable (base_cells_ok w h probs draws) := by
  unfold base_cells_ok; infer_instance

/-- Embedding of `Terrain.generate_base_layer` (src/tixel.py:186-221):
no-op when a terrain side is negative; otherwise assign every cell from
its uniform draw through `_assign_tile` and the most-probable fallback,
then rebuild the terrain stack and the tile instances.  `none` models the
call raising a KeyError out of the fallback. -/
def generate_base_layer (s : TerrainState) (probs : List (String × ℚ))
    (draws : Nat → Nat → ℚ) : Option TerrainState :=
  if s.terrain_height < 0 ∨ s.terrain_width < 0 then some s
  else
    let w := s.terrain_width.toNat
    let h := s.terrain_height.toNat
    if base_cells_ok w h probs draws then
      let g : Grid := ⟨w, h, fun i j => (assign_cell (draws i j) probs).getD "0"⟩
      some (generate_tiles { s with base_layer := g, terrain := [g] })
    else none

/-- Embedding of `Terrain.smooth_base_layer` (src/tixel.py:223-253): no-op
without tiles or with a side of size 1; otherwise run one smoothing pass
over the shuffled coordinate list `order` and rebuild the stack and the
tile instances. -/
def smooth_base_layer (s : TerrainState) (tile_types : List String)
    (order : List (Nat × Nat)) (flips : Nat → Bool) : TerrainState :=
  if s.tiles = [] then s
  else if s.terrain_width = 1 ∨ s.terrain_height = 1 then s
  else
    let g := (smoothPass s.base_layer tile_types order flips).1
    generate_tiles { s with base_layer := g, terrain := [g] }

/-- Embedding of `Terrain.generate_elevation` (src/tixel.py:255-302): after
the four precondition checks, keep only the base layer, regenerate the
heightmap, correct the stored elevation to the heightmap's maximum, build
one layer per elevation level (cell occupied iff its height exceeds the
level index), and rebuild the tile instances. -/
def generate_elevation (s : TerrainState) : TerrainState :=
  if s.tiles = [] then s
  else if s.elevation_symbol = none then s
  else if s.terrain_width = 1 ∨ s.terrain_height = 1 then s
  else if s.elevation ≤ 0 ∨ s.elevation_iterations < 0 then s
  else
    let sym := s.elevation_symbol.getD "0"
    let base := s.terrain.headD grid_default
    let hm := generate_heightmap s.base_layer sym s.elevation s.elevation_iterations
    let e : Int := gridMaxZ hm
    let layers := (List.range e.toNat).map (fun (i : Nat) =>
      (⟨s.terrain_width.toNat, s.terrain_height.toNat,
        fun j k => if (i : Int) < hm.cell j k then sym else "0"⟩ : Grid))
    generate_tiles
      { s with terrain := base :: layers, heightmap := some hm, elevation := e }

/-- Embedding of `Terrain.update_terrain_info` (src/tixel.py:387-409). -/
def update_terrain_info (s : TerrainState) (tw th w h t e ei : Int) : TerrainState :=
  { s with terrain_width := tw, terrain_height := th, tile_width := w,
           tile_height := h, tile_thickness := t, elevation := e,
           elevation_iterations := ei }

/-- Embedding of `Terrain.update_selected_tiles` (src/tixel.py:411-438):
with a pointed instance, a control-click removes it from the selection when
present, and a plain click appends it to the selection; a control-click with
no pointed instance clears the selection. -/
def update_selected_tiles (s : TerrainState) (control_pressed left_mouse_pressed : Bool) :
    TerrainState :=
  if s.tiles = [] then s
  else
    match s.pointed_tile with
    | some p =>
        if left_mouse_pressed then
          if control_pressed then
            if p ∈ s.selected_tiles then
              { s with selected_tiles := s.selected_tiles.erase p }
            else s
          else { s with selected_tiles := s.selected_tiles ++ [p] }
        else s
    | none =>
        if left_mouse_pressed && control_pressed then
          { s with selected_tiles := [] }
        else s

/-- Set one cell of layer `n` of the terrain stack,
modelling `self.terrain[n][index] = v`. -/
def terrain_set_cell (tr : List Grid) (n : Nat) (idx : Nat × Nat) (v : String) :
    List Grid :=
  tr.set n ((tr.getD n grid_default).set idx.1 idx.2 v)

/-- Embedding of `Terrain.change_selected_tile_type` (src/tixel.py:440-453):
write the new type into the backing grid cell of every selected instance,
update the instances' stored type, and clear the selection.  Layer 0 of the
terrain stack aliases `base_layer` in the source, so the written stack's
head is copied back into `base_layer`. -/
def change_selected_tile_type (s : TerrainState) (ty : String) : TerrainState :=
  if s.selected_tiles = [] then s
  else
    let tr := s.selected_tiles.foldl
      (fun tr t => terrain_set_cell tr (t.elevation - 1).toNat t.index ty) s.terrain
    let ts := s.tiles.map (fun t =>
      if s.selected_tiles.any (fun u => u.id == t.id) then
        { t with tile_type := ty }
      else t)
    { s with terrain := tr, tiles := ts, selected_tiles := [],
             base_layer := tr.headD s.base_layer }

/-- Python's `for x in lst: if p(x): lst.remove(x)` on a list of tiles: the
loop index advances every iteration even when the element under it was just
removed, so the element that slides into the freed slot is skipped. -/
def py_filter_remove_loop (p : PyTile → Bool) : Nat → Nat → List PyTile → List PyTile
  | 0, _, l => l
  | fuel + 1, i, l =>
      match l.get? i with
      | none => l
      | some x => py_filter_remove_loop p fuel (i + 1) (if p x then l.erase x else l)

/-- The body of `Terrain.delete_tiles` (src/tixel.py:462-470): iterate over
`selected_tiles` with Python's advancing index while the processed entries
are being removed from the very list being iterated; each elevated entry is
also removed from `tiles` and its backing grid cell is set to EMPTY. -/
def delete_loop : Nat → Nat → List PyTile → List Grid → List PyTile →
    List PyTile × List Grid × List PyTile
  | 0, _, ts, tr, sel => (ts, tr, sel)
  | fuel + 1, i, ts, tr, sel =>
      match sel.get? i with
      | none => (ts, tr, sel)
      | some tile =>
          if 1 < tile.elevation then
            let ts2 := py_filter_remove_loop
              (fun t2 => t2.index == tile.index && t2.elevation == tile.elevation)
              (ts.length + 1) 0 ts
            let tr2 := terrain_set_cell tr (tile.elevation - 1).toNat tile.index "0"
            let sel2 := sel.erase tile
            delete_loop fuel (i + 1) ts2 tr2 sel2
          else delete_loop fuel (i + 1) ts tr sel

/-- Embedding of `Terrain.delete_tiles` (src/tixel.py:455-470), given that
the delete key was pressed. -/
def delete_tiles (s : TerrainState) : TerrainState :=
  let r := delete_loop (s.selected_tiles.length + 1) 0 s.tiles s.terrain s.selected_tiles
  { s with tiles := r.1, terrain := r.2.1, selected_tiles := r.2.2 }

def tileGridC10 : Grid :=
  ⟨2, 2, fun i j => if i = 0 ∧ j = 0 then "2" else "1"⟩

def baseGrid2x2 : Grid :=
  ⟨2, 2, fun _ _ => "1"⟩

def layerGridC3 : Grid :=
  ⟨2, 2, fun i j => if i = 0 ∧ (j = 0 ∨ j = 1) then "1" else "0"⟩

def tileC3base : PyTile := ⟨1, "1", (0, 0), 1⟩

def tileC3A : PyTile := ⟨10, "1", (0, 0), 2⟩

def tileC3B : PyTile := ⟨11, "1", (0, 1), 2⟩

def stateC3 : TerrainState :=
  { terrain_width := 2, terrain_height := 2, tile_width := 10, tile_height := 10,
    tile_thickness := 5, elevation_symbol := some "1", elevation := 1,
    elevation_iterations := 0, base_layer := baseGrid2x2, heightmap := none,
    terrain := [baseGrid2x2, layerGridC3],
    tiles := [tileC3base, tileC3A, tileC3B],
    selected_tiles := [tileC3base, tileC3A, tileC3B], pointed_tile := none }

def tileC8 : PyTile := ⟨5, "1", (0, 0), 1⟩

def stateC8 : TerrainState :=
  { terrain_width := 1, terrain_height := 1, tile_width := 10, tile_height := 10,
    tile_thickness := 5, elevation_symbol := none, elevation := 1,
    elevation_iterations := 1, base_layer := ⟨1, 1, fun _ _ => "1"⟩,
    heightmap := none, terrain := [⟨1, 1, fun _ _ => "1"⟩],
    tiles := [tileC8], selected_tiles := [tileC8], pointed_tile := some tileC8 }

def stateC5 : TerrainState :=
  { terrain_width := 0, terrain_height := 2, tile_width := 10, tile_height := 10,
    tile_thickness := 5, elevation_symbol := none, elevation := 1,
    elevation_iterations := 1, base_layer := ⟨2, 2, fun _ _ => "1"⟩,
    heightmap := none, terrain := [⟨2, 2, fun _ _ => "1"⟩],
    tiles := [⟨0, "1", (0, 0), 1⟩], selected_tiles := [⟨0, "1", (0, 0), 1⟩],
    pointed_tile := none }

def stateC5neg : TerrainState :=
  { terrain_width := -1, terrain_height := 2, tile_width := 10, tile_height := 10,
    tile_thickness := 5, elevation_symbol := none, elevation := 1,
    elevation_iterations := 1, base_layer := ⟨2, 2, fun _ _ => "1"⟩,
    heightmap := none, terrain := [⟨2, 2, fun _ _ => "1"⟩],
    tiles := [⟨0, "1", (0, 0), 1⟩], selected_tiles := [],
    pointed_tile := none }

/-- Maximum of the weights of a mapping together with a seed value. -/
def wmaxElems (l : List (String × ℚ)) (a : ℚ) : ℚ :=
  l.foldr (fun kv m => max kv.2 m) a

def stateC4 : TerrainState :=
  { terrain_width := 1, terrain_height := 1, tile_width := 10, tile_height := 10,
    tile_thickness := 5, elevation_symbol := none, elevation := 1,
    elevation_iterations := 1, base_layer := ⟨1, 1, fun _ _ => "0"⟩,
    heightmap := none, terrain := [], tiles := [], selected_tiles := [],
    pointed_tile := none }

/-- Uniformity of a grid: every in-bounds cell holds the tile type `T`. -/
def uniformOn (g : Grid) (T : String) : Prop :=
  ∀ i j, i < g.width → j < g.height → g.cell i j = T

def stateC9 : TerrainState :=
  { terrain_width := 2, terrain_height := 2, tile_width := 10, tile_height := 10,
    tile_thickness := 5, elevation_symbol := none, elevation := 1,
    elevation_iterations := 1, base_layer := baseGrid2x2,
    heightmap := none, terrain := [baseGrid2x2],
    tiles := [⟨0, "1", (0, 0), 1⟩], selected_tiles := [], pointed_tile := none }

/-- Nonnegativity of every entry of a rational grid. -/
def nonnegQ (g : QGrid) : Prop :=
  ∀ i j, 0 ≤ g.cell i j

def stateC6 : TerrainState :=
  { terrain_width := 2, terrain_height := 2, tile_width := 10, tile_height := 10,
    tile_thickness := 5, elevation_symbol := some "1", elevation := 3,
    elevation_iterations := 0, base_layer := baseGrid2x2,
    heightmap := none, terrain := [baseGrid2x2],
    tiles := [⟨0, "1", (0, 0), 1⟩], selected_tiles := [], pointed_tile := none }

def stateC7 : TerrainState :=
  { terrain_width := 2, terrain_height := 2, tile_width := 10, tile_height := 10,
    tile_thickness := 5, elevation_symbol := some "1", elevation := 2,
    elevation_iterations := 0, base_layer := baseGrid2x2,
    heightmap := none, terrain := [baseGrid2x2],
    tiles := [⟨0, "1", (0, 0), 1⟩], selected_tiles := [], pointed_tile := none }

def hmC7 : ZGrid :=
  generate_heightmap stateC7.base_layer "1" 2 0

/-- The shape of a grid, as a pair (width, height). -/
def grid_dims (g : Grid) : Nat × Nat :=
  (g.width, g.height)

/-- The TerrainStack dimension invariant: every grid of the stack has the
same shape as the base layer. -/
def dims_ok (s : TerrainState) : Prop :=
  ∀ g ∈ s.terrain, grid_dims g = grid_dims s.base_layer

instance (s : TerrainState) : Decidable (dims_ok s) := by
  unfold dims_ok; infer_instance

def baseGrid3x3 : Grid :=
  ⟨3, 3, fun _ _ => "1"⟩

def stateC2 : TerrainState :=
  { terrain_width := 3, terrain_height := 3, tile_width := 10, tile_height := 10,
    tile_thickness := 5, elevation_symbol := some "1", elevation := 1,
    elevation_iterations := 0, base_layer := baseGrid3x3,
    heightmap := none, terrain := [baseGrid3x3],
    tiles := [⟨0, "1", (0, 0), 1⟩], selected_tiles := [], pointed_tile := none }

theorem GridOf.set_width {α : Type} (g : GridOf α) (i j : Nat) (v : α) :
    (g.set i j v).width = g.width := rfl

theorem GridOf.set_height {α : Type} (g : GridOf α) (i j : Nat) (v : α) :
    (g.set i j v).height = g.height := rfl

theorem GridOf.set_cell_ne {α : Type} (g : GridOf α) (i j a b : Nat) (v : α)
    (h : ¬(a = i ∧ b = j)) : (g.set i j v).cell a b = g.cell a b := by
  simp [GridOf.set, h]

theorem mem_allCoords {w h : Nat} {c : Nat × Nat} :
    c ∈ allCoords w h ↔ c.1 < w ∧ c.2 < h := by
  rcases c with ⟨i, j⟩
  constructor
  · intro hc
    simp only [allCoords, List.mem_flatMap, List.mem_map, List.mem_range] at hc
    obtain ⟨a, ha, b, hb, hab⟩ := hc
    injection hab with h1 h2
    subst h1; subst h2
    exact ⟨ha, hb⟩
  · rintro ⟨hi, hj⟩
    simp only [allCoords, List.mem_flatMap, List.mem_map, List.mem_range]
    exact ⟨i, hi, j, hj, rfl⟩

theorem get_neighbor_vals_ne_nil {α : Type} (d0 d1 : Nat) (cell : Nat → Nat → α)
    (i j : Nat) : get_neighbor_vals d0 d1 cell i j ≠ [] := by
  unfold get_neighbor_vals
  split_ifs <;> simp

theorem mem_get_neighbor_vals {α : Type} (d0 d1 : Nat) (cell : Nat → Nat → α)
    (i j : Nat) : ∀ x ∈ get_neighbor_vals d0 d1 cell i j, ∃ a b, x = cell a b := by
  unfold get_neighbor_vals
  split_ifs <;> (intro x hx; fin_cases hx) <;> exact ⟨_, _, rfl⟩

theorem mem_get_neighbor_vals_bounds {α : Type} (d0 d1 : Nat) (cell : Nat → Nat → α)
    (i j : Nat) (hd0 : 2 ≤ d0) (hd1 : 2 ≤ d1) (hi : i < d0) (hj : j < d1) :
    ∀ x ∈ get_neighbor_vals d0 d1 cell i j, ∃ a b, a < d0 ∧ b < d1 ∧ x = cell a b := by
  unfold get_neighbor_vals
  split_ifs with h1 h2 h3 h4 h5 h6 h7 h8 <;>
    (intro x hx; fin_cases hx) <;>
    (refine ⟨_, _, ?_, ?_, rfl⟩ <;> omega)

theorem mem_firstDedupAux (l : List String) :
    ∀ (seen : List String) (x : String),
      x ∈ firstDedupAux seen l ↔ x ∈ l ∧ x ∉ seen := by
  induction l with
  | nil => intro seen x; simp [firstDedupAux]
  | cons t rest ih =>
      intro seen x
      by_cases ht : t ∈ seen
      · rw [firstDedupAux, if_pos ht, ih]
        constructor
        · rintro ⟨hx, hs⟩; exact ⟨List.mem_cons_of_mem _ hx, hs⟩
        · rintro ⟨hx, hs⟩
          rcases List.mem_cons.1 hx with rfl | hx
          · exact absurd ht hs
          · exact ⟨hx, hs⟩
      · rw [firstDedupAux, if_neg ht]
        constructor
        · intro hx
          rcases List.mem_cons.1 hx with rfl | hx
          · exact ⟨List.mem_cons_self .., ht⟩
          · rw [ih] at hx
            refine ⟨List.mem_cons_of_mem _ hx.1, fun hs => hx.2 (List.mem_cons_of_mem _ hs)⟩
        · rintro ⟨hx, hs⟩
          rcases List.mem_cons.1 hx with rfl | hx
          · exact List.mem_cons_self ..
          · by_cases hxt : x = t
            · subst hxt; exact List.mem_cons_self ..
            · exact List.mem_cons_of_mem _
                ((ih _ x).2 ⟨hx, fun hmem => by
                  rcases List.mem_cons.1 hmem with h | h
                  · exact hxt h
                  · exact hs h⟩)

theorem nodup_firstDedupAux (l : List String) :
    ∀ seen : List String, (firstDedupAux seen l).Nodup := by
  induction l with
  | nil => intro seen; simp [firstDedupAux]
  | cons t rest ih =>
      intro seen
      by_cases ht : t ∈ seen
      · rw [firstDedupAux, if_pos ht]; exact ih seen
      · rw [firstDedupAux, if_neg ht]
        refine List.nodup_cons.2 ⟨fun hmem => ?_, ih _⟩
        exact ((mem_firstDedupAux rest _ t).1 hmem).2 (List.mem_cons_self ..)

theorem mem_firstDedup (l : List String) (x : String) :
    x ∈ firstDedup l ↔ x ∈ l := by
  rw [firstDedup, mem_firstDedupAux]; simp

theorem nodup_firstDedup (l : List String) : (firstDedup l).Nodup :=
  nodup_firstDedupAux l []

theorem le_listMaxZ_of_mem {x : Int} : ∀ {l : List Int}, x ∈ l → x ≤ listMaxZ l := by
  intro l
  induction l with
  | nil => intro h; cases h
  | cons a rest ih =>
      intro hx
      cases rest with
      | nil =>
          rcases List.mem_cons.1 hx with rfl | hx
          · exact le_refl _
          · cases hx
      | cons b rest2 =>
          rcases List.mem_cons.1 hx with rfl | hx
          · exact le_max_left _ _
          · exact le_trans (ih hx) (le_max_right _ _)

theorem diffuse_cell_zero_preserved (g : QGrid) (a b i j : Nat)
    (h : g.cell i j = 0) : (diffuse_cell g a b).cell i j = 0 := by
  unfold diffuse_cell
  by_cases hz : g.cell a b = 0
  · rw [if_pos hz]; exact h
  · rw [if_neg hz]
    by_cases hij : i = a ∧ j = b
    · rcases hij with ⟨rfl, rfl⟩; exact absurd h hz
    · rw [GridOf.set_cell_ne _ _ _ _ _ _ hij]; exact h

theorem foldl_diffuse_zero_preserved (l : List (Nat × Nat)) :
    ∀ (g : QGrid) (i j : Nat), g.cell i j = 0 →
      (l.foldl (fun cur c => diffuse_cell cur c.1 c.2) g).cell i j = 0 := by
  induction l with
  | nil => intro g i j h; exact h
  | cons c rest ih =>
      intro g i j h
      exact ih _ i j (diffuse_cell_zero_preserved g c.1 c.2 i j h)

theorem diffuse_pass_zero_preserved (g : QGrid) (i j : Nat) (h : g.cell i j = 0) :
    (diffuse_pass g).cell i j = 0 :=
  foldl_diffuse_zero_preserved _ g i j h

theorem iterateN_diffuse_zero_preserved (n : Nat) :
    ∀ (g : QGrid) (i j : Nat), g.cell i j = 0 →
      (iterateN diffuse_pass n g).cell i j = 0 := by
  induction n with
  | zero => intro g i j h; exact h
  | succ m ih =>
      intro g i j h
      exact ih _ i j (diffuse_pass_zero_preserved g i j h)

/-- C10: for every base layer, elevation marker, elevation value `≥ 0` and
iteration count `≥ 0`, a cell whose base-layer tile differs from the marker
ends with heightmap value 0: zero cells are skipped by every diffusion
iteration and are never written, so the nonzero region never grows beyond
the seeded marker cells. -/
theorem C10_nonmarker_zero (t : Grid) (sym : String)
    (elevation iterations : Int)
    (he : 0 ≤ elevation) (hit : 0 ≤ iterations) (i j : Nat)
    (hnm : t.cell i j ≠ sym) :
    (generate_heightmap t sym elevation iterations).cell i j = 0 := by
  unfold generate_heightmap
  have hseed :
      (⟨t.width, t.height,
        fun a b => if t.cell a b = sym then (elevation : ℚ) else 0⟩ : QGrid).cell i j = 0 := by
    simp only [if_neg hnm]
  have hfin := iterateN_diffuse_zero_preserved iterations.toNat _ i j hseed
  simp only [hfin]
  decide

theorem C10_nonmarker_zero_witness :
    (0 : Int) ≤ 5 ∧ (0 : Int) ≤ 0 ∧ tileGridC10.cell 0 0 ≠ "1" ∧
      (generate_heightmap tileGridC10 "1" 5 0).cell 0 0 = 0 :=
  ⟨by decide, by decide, by decide,
    C10_nonmarker_zero tileGridC10 "1" 5 0 (by decide) (by decide) 0 0 (by decide)⟩

/-- C3: with three simultaneously selected instances (one base instance and
two elevated ones) the delete signal removes only the first elevated
instance: because the loop removes entries from `selected_tiles` while
iterating it, the second elevated instance `tileC3B` is skipped — it stays
selected, stays in the tile instance set, and its backing grid cell keeps
its type — while the claim requires every selected elevated instance to be
removed and its cell set to EMPTY.  The base instance is correctly left
untouched, and the processed elevated instance `tileC3A` is correctly
removed with its cell set to EMPTY. -/
theorem C3_delete_skips_second_selected :
    (delete_tiles stateC3).selected_tiles = [tileC3base, tileC3B] ∧
    tileC3B ∈ (delete_tiles stateC3).tiles ∧
    ((delete_tiles stateC3).terrain.getD 1 grid_default).cell 0 1 = "1" ∧
    tileC3A ∉ (delete_tiles stateC3).tiles ∧
    ((delete_tiles stateC3).terrain.getD 1 grid_default).cell 0 0 = "0" ∧
    tileC3base ∈ (delete_tiles stateC3).tiles ∧
    ((delete_tiles stateC3).terrain.getD 0 grid_default).cell 0 0 = "1" := by
  decide

/-- C8: a plain (no-modifier) click on a pointed instance that is already
selected appends it to `selected_tiles` again, so the selection holds a
duplicate — the code's own comment says "select the tile if it was not
selected" but the membership test is missing, contradicting the claim that
the selection behaves as a set. -/
theorem C8_duplicate_selection :
    (update_selected_tiles stateC8 false true).selected_tiles = [tileC8, tileC8] ∧
    ¬ (update_selected_tiles stateC8 false true).selected_tiles.Nodup ∧
    stateC8.selected_tiles.Nodup := by
  decide

/-- C5 counterexample: with `terrain_width = 0` (which the claim includes in
the no-op precondition) `generate_base_layer` is not a no-op: the guard only
rejects strictly negative sides, so the call proceeds, replaces the base
layer with an empty 0×2 grid and clears both the tile instance list and the
selection. -/
theorem C5_counterexample :
    (generate_base_layer stateC5 [("1", 1)] (fun _ _ => 0)).map (fun t => t.tiles)
      = some [] ∧
    stateC5.tiles ≠ [] ∧
    (generate_base_layer stateC5 [("1", 1)] (fun _ _ => 0)).map
        (fun t => (t.base_layer.width, t.base_layer.height)) = some (0, 2) := by
  decide

/-- C5 amended: `generate_base_layer` is a complete no-op exactly when a
terrain side is strictly negative; the prior state is returned unmodified.
A side equal to 0 passes the guard and the call rebuilds the state. -/
theorem C5_noop_amended (s : TerrainState) (probs : List (String × ℚ))
    (draws : Nat → Nat → ℚ)
    (h : s.terrain_width < 0 ∨ s.terrain_height < 0) :
    generate_base_layer s probs draws = some s := by
  unfold generate_base_layer
  exact if_pos h.symm

theorem C5_noop_amended_witness :
    (stateC5neg.terrain_width < 0 ∨ stateC5neg.terrain_height < 0) ∧
    generate_base_layer stateC5neg [("1", 1)] (fun _ _ => 0) = some stateC5neg :=
  ⟨Or.inl (by decide),
    C5_noop_amended stateC5neg [("1", 1)] (fun _ _ => 0) (Or.inl (by decide))⟩

theorem assign_tile_accumulate_none (probs : List (String × ℚ)) :
    ∀ (a draw : ℚ), (∀ kv ∈ probs, 0 ≤ kv.2) →
      a + sum_weights probs ≤ draw →
      assign_tile draw (accumulate_aux a probs) = none := by
  induction probs with
  | nil => intro a draw _ _; rfl
  | cons kv rest ih =>
      rcases kv with ⟨k, v⟩
      intro a draw hnn hle
      have hsum : sum_weights ((k, v) :: rest) = v + sum_weights rest := by
        simp [sum_weights]
      have hr : 0 ≤ sum_weights rest := by
        apply List.sum_nonneg
        intro x hx
        simp only [List.mem_map] at hx
        obtain ⟨kv2, hkv2, rfl⟩ := hx
        exact hnn kv2 (List.mem_cons_of_mem _ hkv2)
      have hbound : a + v ≤ draw := by
        have := hle
        rw [hsum] at this
        linarith
      rw [accumulate_aux, assign_tile, if_neg (not_lt.2 hbound)]
      apply ih (a + v) draw (fun kv2 h2 => hnn kv2 (List.mem_cons_of_mem _ h2))
      rw [hsum] at hle
      linarith

theorem dlookup_eq_none_of_not_mem (d : List (String × ℚ)) (k : String)
    (h : k ∉ d.map Prod.fst) : dlookup d k = none := by
  induction d with
  | nil => rfl
  | cons kv rest ih =>
      rw [dlookup]
      rw [if_neg]
      · exact ih (fun hm => h (List.mem_cons_of_mem _ hm))
      · intro he
        exact h (by simp [he.symm])

theorem dlookup_isSome_of_mem (d : List (String × ℚ)) (k : String)
    (h : k ∈ d.map Prod.fst) : ∃ v, dlookup d k = some v := by
  induction d with
  | nil => simp at h
  | cons kv rest ih =>
      by_cases he : kv.1 = k
      · exact ⟨kv.2, by rw [dlookup, if_pos he]⟩
      · have : k ∈ rest.map Prod.fst := by
          rcases List.mem_cons.1 h with h1 | h1
          · exact absurd h1.symm he
          · exact h1
        obtain ⟨v, hv⟩ := ih this
        exact ⟨v, by rw [dlookup, if_neg he]; exact hv⟩

theorem dlookup_mem_values (d : List (String × ℚ)) (k : String) (v : ℚ)
    (h : dlookup d k = some v) : ∃ kv ∈ d, kv.2 = v := by
  induction d with
  | nil => simp [dlookup] at h
  | cons kv rest ih =>
      rw [dlookup] at h
      by_cases he : kv.1 = k
      · rw [if_pos he] at h
        exact ⟨kv, List.mem_cons_self .., by injection h⟩
      · rw [if_neg he] at h
        obtain ⟨kv2, hm, hv⟩ := ih h
        exact ⟨kv2, List.mem_cons_of_mem _ hm, hv⟩

theorem dlookup_self_of_nodup (d : List (String × ℚ))
    (hnd : (d.map Prod.fst).Nodup) :
    ∀ kv ∈ d, dlookup d kv.1 = some kv.2 := by
  induction d with
  | nil => intro kv h; cases h
  | cons a rest ih =>
      intro kv hkv
      rcases List.mem_cons.1 hkv with rfl | hm
      · rw [dlookup, if_pos rfl]
      · rw [dlookup, if_neg, ih (List.nodup_cons.1 hnd).2 kv hm]
        intro he
        exact (List.nodup_cons.1 hnd).1
          (by rw [he]; exact List.mem_map_of_mem _ hm)

theorem fallback_loop_stay (d : List (String × ℚ)) :
    ∀ (l : List (String × ℚ)) (c : String) (vc : ℚ),
      dlookup d c = some vc → (∀ kv ∈ l, kv.2 ≤ vc) →
      fallback_loop d l c = some c := by
  intro l
  induction l with
  | nil => intro c vc _ _; rfl
  | cons kv rest ih =>
      rcases kv with ⟨k, v⟩
      intro c vc hc hle
      rw [fallback_loop, hc]
      show (if vc < v then fallback_loop d rest k else fallback_loop d rest c) = some c
      rw [if_neg (not_lt.2 (hle (k, v) (List.mem_cons_self ..)))]
      exact ih c vc hc (fun kv2 h2 => hle kv2 (List.mem_cons_of_mem _ h2))

theorem fallback_loop_missing_cand (d : List (String × ℚ)) (l : List (String × ℚ))
    (c : String) (hl : l ≠ []) (hc : dlookup d c = none) :
    fallback_loop d l c = none := by
  cases l with
  | nil => exact absurd rfl hl
  | cons kv rest => rcases kv with ⟨k, v⟩; rw [fallback_loop, hc]

theorem seed_le_wmaxElems (l : List (String × ℚ)) (a : ℚ) : a ≤ wmaxElems l a := by
  induction l with
  | nil => exact le_refl _
  | cons kv rest ih => exact le_trans ih (le_max_right _ _)

theorem mem_le_wmaxElems (l : List (String × ℚ)) (a : ℚ) :
    ∀ kv ∈ l, kv.2 ≤ wmaxElems l a := by
  induction l with
  | nil => intro kv h; cases h
  | cons b rest ih =>
      intro kv hkv
      rcases List.mem_cons.1 hkv with rfl | hm
      · exact le_max_left _ _
      · exact le_trans (ih kv hm) (le_max_right _ _)

theorem wmaxElems_le (l : List (String × ℚ)) (a c : ℚ)
    (hl : ∀ kv ∈ l, kv.2 ≤ c) (ha : a ≤ c) : wmaxElems l a ≤ c := by
  induction l with
  | nil => exact ha
  | cons b rest ih =>
      exact max_le (hl b (List.mem_cons_self ..))
        (ih (fun kv h => hl kv (List.mem_cons_of_mem _ h)))

theorem wmaxElems_seed_lift (l : List (String × ℚ)) (a b : ℚ) (hab : b ≤ a) :
    wmaxElems l a = max a (wmaxElems l b) := by
  induction l with
  | nil => simp [wmaxElems, max_eq_left hab]
  | cons kv rest ih =>
      show max kv.2 (wmaxElems rest a) = max a (max kv.2 (wmaxElems rest b))
      rw [ih, max_left_comm]

theorem fallback_loop_first_max (d : List (String × ℚ)) :
    ∀ (l : List (String × ℚ)) (c : String) (vc : ℚ),
      (∀ kv ∈ l, dlookup d kv.1 = some kv.2) →
      dlookup d c = some vc →
      ¬(∀ kv ∈ l, kv.2 ≤ vc) →
      ∃ kv, l.find? (fun x => x.2 == wmaxElems l vc) = some kv ∧
        fallback_loop d l c = some kv.1 := by
  intro l
  induction l with
  | nil => intro c vc _ _ hlt; exact absurd (fun kv h => absurd h (List.not_mem_nil _)) hlt
  | cons kv0 rest ih =>
      rcases kv0 with ⟨k, v⟩
      intro c vc hl hc hlt
      have hk : dlookup d k = some v := hl (k, v) (List.mem_cons_self ..)
      have hlrest : ∀ kv ∈ rest, dlookup d kv.1 = some kv.2 :=
        fun kv h => hl kv (List.mem_cons_of_mem _ h)
      rw [fallback_loop, hc]
      by_cases hv : vc < v
      · show (∃ kv, ((k, v) :: rest).find? (fun x => x.2 == wmaxElems ((k, v) :: rest) vc) = some kv ∧
            (if vc < v then fallback_loop d rest k else fallback_loop d rest c) = some kv.1)
        rw [if_pos hv]
        by_cases hrest : ∀ kv ∈ rest, kv.2 ≤ v
        · refine ⟨(k, v), ?_, ?_⟩
          · have hmax : wmaxElems ((k, v) :: rest) vc = v := by
              show max v (wmaxElems rest vc) = v
              exact max_eq_left (wmaxElems_le rest vc v hrest (le_of_lt hv))
            simp only [List.find?, hmax, beq_self_eq_true]
          · exact fallback_loop_stay d rest k v hk hrest
        · obtain ⟨kv1, hfind, hloop⟩ := ih k v hlrest hk hrest
          have hM : wmaxElems ((k, v) :: rest) vc = wmaxElems rest v := by
            show max v (wmaxElems rest vc) = wmaxElems rest v
            rw [wmaxElems_seed_lift rest v vc (le_of_lt hv)]
          refine ⟨kv1, ?_, hloop⟩
          push_neg at hrest
          obtain ⟨kv2, hm2, hlt2⟩ := hrest
          have hvlt : v < wmaxElems rest v :=
            lt_of_lt_of_le hlt2 (mem_le_wmaxElems rest v kv2 hm2)
          have hne : (v == wmaxElems rest v) = false :=
            beq_eq_false_iff_ne.2 (ne_of_lt hvlt)
          simp only [List.find?, hM, hne]
          exact hfind
      · show (∃ kv, ((k, v) :: rest).find? (fun x => x.2 == wmaxElems ((k, v) :: rest) vc) = some kv ∧
            (if vc < v then fallback_loop d rest k else fallback_loop d rest c) = some kv.1)
        rw [if_neg hv]
        have hvle : v ≤ vc := not_lt.1 hv
        have hrest : ¬(∀ kv ∈ rest, kv.2 ≤ vc) := by
          intro hall
          exact hlt (fun kv h => by
            rcases List.mem_cons.1 h with rfl | hm
            · exact hvle
            · exact hall kv hm)
        obtain ⟨kv1, hfind, hloop⟩ := ih c vc hlrest hc hrest
        push_neg at hrest
        obtain ⟨kv2, hm2, hlt2⟩ := hrest
        have hvlt : v < wmaxElems rest vc :=
          lt_of_le_of_lt hvle (lt_of_lt_of_le hlt2 (mem_le_wmaxElems rest vc kv2 hm2))
        have hM : wmaxElems ((k, v) :: rest) vc = wmaxElems rest vc := by
          show max v (wmaxElems rest vc) = wmaxElems rest vc
          exact max_eq_right (le_of_lt hvlt)
        refine ⟨kv1, ?_, hloop⟩
        have hne : (v == wmaxElems rest vc) = false :=
          beq_eq_false_iff_ne.2 (ne_of_lt hvlt)
        simp only [List.find?, hM, hne]
        exact hfind

/-- C1 counterexample: for the mapping `{"2": 3/10, "1": 3/10}` (weights sum
to 3/5 < 1) and a draw of 7/10 past the last cumulative boundary, the first
maximum in iteration order is "2", but the fallback assigns "1": the scan
starts from the hard-coded candidate "1" and only a strictly greater weight
displaces it.  Moreover for the mapping `{"2": 3/10}` the fallback does not
work at all: looking up the absent candidate key "1" is a missing-key
error. -/
theorem C1_counterexample :
    sum_weights [("2", 3/10), ("1", 3/10)] < 1 ∧
    sum_weights [("2", 3/10), ("1", 3/10)] ≤ 7/10 ∧
    spec_highest_weight_first [("2", 3/10), ("1", 3/10)] = some "2" ∧
    assign_cell (7/10) [("2", 3/10), ("1", 3/10)] = some "1" ∧
    ("1" : String) ≠ "2" ∧
    sum_weights [("2", 3/10)] < 1 ∧
    sum_weights [("2", 3/10)] ≤ 1/2 ∧
    assign_cell (1/2) [("2", 3/10)] = none := by
  refine ⟨by norm_num [sum_weights], by norm_num [sum_weights], ?_, ?_, by decide,
    by norm_num [sum_weights], by norm_num [sum_weights], ?_⟩
  · norm_num [spec_highest_weight_first, List.find?, List.all]
  · simp [assign_cell, accumulate_probabilities, accumulate_aux, assign_tile,
      most_probable_fallback, fallback_loop, dlookup]
    norm_num
  · simp [assign_cell, accumulate_probabilities, accumulate_aux, assign_tile,
      most_probable_fallback, fallback_loop, dlookup]
    norm_num

/-- C1 amended: when the weights are nonnegative, the keys are distinct,
they sum to less than 1 and the draw is at or past the last cumulative
boundary, the fallback scan starts from the hard-coded key "1": if "1" is a
key of the mapping, the cell gets "1" whenever no weight strictly exceeds
the weight of "1" (so "1" wins any tie for the maximum, regardless of
iteration order), and otherwise the first key in iteration order attaining
the maximum raw weight; if "1" is not a key and the mapping is nonempty,
the fallback fails with a missing-key error instead of working for any
mapping. -/
theorem C1_fallback_amended (probs : List (String × ℚ)) (draw : ℚ)
    (hnd : (probs.map Prod.fst).Nodup)
    (hnn : ∀ kv ∈ probs, 0 ≤ kv.2)
    (hsum : sum_weights probs < 1)
    (hdraw : sum_weights probs ≤ draw) :
    (∀ v1, dlookup probs "1" = some v1 →
        ((∀ kv ∈ probs, kv.2 ≤ v1) → assign_cell draw probs = some "1") ∧
        (¬(∀ kv ∈ probs, kv.2 ≤ v1) →
          ∃ kv, probs.find? (fun x => x.2 == wmaxElems probs v1) = some kv ∧
            assign_cell draw probs = some kv.1)) ∧
    (dlookup probs "1" = none → probs ≠ [] → assign_cell draw probs = none) := by
  have hassign : assign_tile draw (accumulate_probabilities probs) = none := by
    apply assign_tile_accumulate_none probs 0 draw hnn
    rw [zero_add]; exact hdraw
  have hcell : assign_cell draw probs = most_probable_fallback probs := by
    rw [assign_cell, hassign]
  constructor
  · intro v1 hv1
    constructor
    · intro hall
      rw [hcell, most_probable_fallback]
      exact fallback_loop_stay probs probs "1" v1 hv1 hall
    · intro hlt
      obtain ⟨kv, hfind, hloop⟩ :=
        fallback_loop_first_max probs probs "1" v1
          (dlookup_self_of_nodup probs hnd) hv1 hlt
      exact ⟨kv, hfind, by rw [hcell, most_probable_fallback]; exact hloop⟩
  · intro hnone hne
    rw [hcell, most_probable_fallback]
    exact fallback_loop_missing_cand probs probs "1" hne hnone

theorem C1_fallback_amended_witness :
    sum_weights [("1", 1/4), ("2", 1/2)] < 1 ∧
    sum_weights [("1", 1/4), ("2", 1/2)] ≤ 4/5 ∧
    (∃ kv, [("1", (1 : ℚ)/4), ("2", 1/2)].find?
        (fun x => x.2 == wmaxElems [("1", (1 : ℚ)/4), ("2", 1/2)] (1/4)) = some kv ∧
      assign_cell (4/5) [("1", (1 : ℚ)/4), ("2", 1/2)] = some kv.1) := by
  refine ⟨by norm_num [sum_weights], by norm_num [sum_weights], ?_⟩
  have h := C1_fallback_amended [("1", (1 : ℚ)/4), ("2", 1/2)] (4/5)
    (by decide) (by intro kv hkv; fin_cases hkv <;> norm_num)
    (by norm_num [sum_weights]) (by norm_num [sum_weights])
  have h1 := (h.1 (1/4) (by norm_num [dlookup])).2 (by
    intro hall
    have := hall ("2", 1/2) (by simp)
    norm_num at this)
  exact h1

theorem sum_weights_of_all_zero (probs : List (String × ℚ))
    (h : ∀ kv ∈ probs, kv.2 = 0) : sum_weights probs = 0 := by
  rw [sum_weights]
  apply List.sum_eq_zero
  intro x hx
  simp only [List.mem_map] at hx
  obtain ⟨kv, hkv, rfl⟩ := hx
  exact h kv hkv

theorem assign_cell_all_zero_with_one (probs : List (String × ℚ))
    (hz : ∀ kv ∈ probs, kv.2 = 0) (h1 : "1" ∈ probs.map Prod.fst)
    (dr : ℚ) (hdr : 0 ≤ dr) : assign_cell dr probs = some "1" := by
  have hnn : ∀ kv ∈ probs, 0 ≤ kv.2 := fun kv h => le_of_eq (hz kv h).symm
  have hassign : assign_tile dr (accumulate_probabilities probs) = none := by
    apply assign_tile_accumulate_none probs 0 dr hnn
    rw [zero_add, sum_weights_of_all_zero probs hz]
    exact hdr
  obtain ⟨v1, hv1⟩ := dlookup_isSome_of_mem probs "1" h1
  obtain ⟨kv1, _, hval⟩ := dlookup_mem_values probs "1" v1 hv1
  have hv10 : v1 = 0 := by rw [← hval]; exact hz kv1 (by assumption)
  rw [assign_cell, hassign, most_probable_fallback]
  apply fallback_loop_stay probs probs "1" v1 hv1
  intro kv hkv
  rw [hz kv hkv, hv10]

theorem assign_cell_all_zero_without_one (probs : List (String × ℚ))
    (hz : ∀ kv ∈ probs, kv.2 = 0) (h1 : "1" ∉ probs.map Prod.fst)
    (hne : probs ≠ []) (dr : ℚ) (hdr : 0 ≤ dr) : assign_cell dr probs = none := by
  have hnn : ∀ kv ∈ probs, 0 ≤ kv.2 := fun kv h => le_of_eq (hz kv h).symm
  have hassign : assign_tile dr (accumulate_probabilities probs) = none := by
    apply assign_tile_accumulate_none probs 0 dr hnn
    rw [zero_add, sum_weights_of_all_zero probs hz]
    exact hdr
  rw [assign_cell, hassign, most_probable_fallback]
  exact fallback_loop_missing_cand probs probs "1"
    hne (dlookup_eq_none_of_not_mem probs "1" h1)

/-- C4 counterexample: on a 1×1 terrain and an empty probability mapping,
`generate_base_layer` does not raise any error: it completes and silently
fills the cell with the tile type "1" (the hard-coded fallback candidate),
while the claim requires an `InvalidConfiguration` error and forbids
silently filling the grid with any tile type. -/
theorem C4_counterexample :
    (generate_base_layer stateC4 [] (fun _ _ => 0)).map
        (fun t => t.base_layer.cell 0 0) = some "1" ∧
    (generate_base_layer stateC4 [] (fun _ _ => 0)).isSome = true ∧
    ("1" : String) ≠ "0" := by
  decide

/-- C4 amended: degenerate probability mappings are not detected as an error
condition.  With nonnegative in-range draws: the empty mapping makes
`generate_base_layer` complete normally with every cell set to "1"; an
all-zero mapping that contains the key "1" likewise fills every cell with
"1"; and an all-zero nonempty mapping without the key "1" makes the call
fail with a missing-key lookup error, not an `InvalidConfiguration`. -/
theorem C4_degenerate_amended (s : TerrainState) (draws : Nat → Nat → ℚ)
    (hg : ¬(s.terrain_height < 0 ∨ s.terrain_width < 0))
    (hd : ∀ i j, 0 ≤ draws i j) :
    (∃ s', generate_base_layer s [] draws = some s' ∧
        ∀ i j, s'.base_layer.cell i j = "1") ∧
    (∀ probs, (∀ kv ∈ probs, kv.2 = 0) → "1" ∈ probs.map Prod.fst →
        ∃ s', generate_base_layer s probs draws = some s' ∧
          ∀ i j, s'.base_layer.cell i j = "1") ∧
    (∀ probs, (∀ kv ∈ probs, kv.2 = 0) → "1" ∉ probs.map Prod.fst → probs ≠ [] →
        0 < s.terrain_width.toNat → 0 < s.terrain_height.toNat →
        generate_base_layer s probs draws = none) := by
  refine ⟨?_, ?_, ?_⟩
  · have hok : base_cells_ok s.terrain_width.toNat s.terrain_height.toNat [] draws := by
      intro i _ j _; rfl
    rw [generate_base_layer, if_neg hg, if_pos hok]
    exact ⟨_, rfl, fun i j => rfl⟩
  · intro probs hz h1
    have hcell : ∀ i j : Nat, assign_cell (draws i j) probs = some "1" :=
      fun i j => assign_cell_all_zero_with_one probs hz h1 (draws i j) (hd i j)
    have hok : base_cells_ok s.terrain_width.toNat s.terrain_height.toNat probs draws := by
      intro i _ j _; rw [hcell]; rfl
    rw [generate_base_layer, if_neg hg, if_pos hok]
    refine ⟨_, rfl, fun i j => ?_⟩
    show (assign_cell (draws i j) probs).getD "0" = "1"
    rw [hcell]; rfl
  · intro probs hz h1 hne hw hh
    have hcell : assign_cell (draws 0 0) probs = none :=
      assign_cell_all_zero_without_one probs hz h1 hne (draws 0 0) (hd 0 0)
    have hok : ¬ base_cells_ok s.terrain_width.toNat s.terrain_height.toNat probs draws := by
      intro hok
      have := hok 0 hw 0 hh
      rw [hcell] at this
      exact absurd this (by decide)
    rw [generate_base_layer, if_neg hg, if_neg hok]

theorem C4_degenerate_amended_witness :
    ¬(stateC4.terrain_height < 0 ∨ stateC4.terrain_width < 0) ∧
    (∃ s', generate_base_layer stateC4 [] (fun _ _ => 0) = some s' ∧
        ∀ i j, s'.base_layer.cell i j = "1") ∧
    generate_base_layer stateC4 [("2", 0), ("3", 0)] (fun _ _ => 0) = none := by
  have h := C4_degenerate_amended stateC4 (fun _ _ => 0)
    (by decide) (fun i j => le_refl 0)
  refine ⟨by decide, h.1, ?_⟩
  apply h.2.2 [("2", 0), ("3", 0)]
  · intro kv hkv; fin_cases hkv <;> rfl
  · decide
  · decide
  · decide
  · decide

theorem pickMostFrequent_keep (count : String → Nat) (flips : Nat → Bool) :
    ∀ (ks : List String) (c : String) (n : Nat),
      (∀ k ∈ ks, count k < count c) →
      pickMostFrequent count flips ks c n = (c, n) := by
  intro ks
  induction ks with
  | nil => intro c n _; rfl
  | cons k rest ih =>
      intro c n hlt
      have hk := hlt k (List.mem_cons_self ..)
      rw [pickMostFrequent, if_neg (by omega), if_neg (by omega)]
      exact ih c n (fun k2 h2 => hlt k2 (List.mem_cons_of_mem _ h2))

theorem pickMostFrequent_const (count : String → Nat) (flips : Nat → Bool)
    (T : String) :
    ∀ (ks : List String) (c : String) (n : Nat),
      ks.Nodup → T ∈ ks → 0 < count T → (∀ k, k ≠ T → count k = 0) →
      (c = T ∨ count c = 0) →
      (pickMostFrequent count flips ks c n).1 = T := by
  intro ks
  induction ks with
  | nil => intro c n _ hT; cases hT
  | cons k rest ih =>
      intro c n hnd hT hpos hz hc
      have hrest_lt : T ∉ rest → ∀ k2 ∈ rest, count k2 < count T := by
        intro hTr k2 h2
        have : k2 ≠ T := fun he => hTr (he ▸ h2)
        rw [hz k2 this]; exact hpos
      by_cases hk : k = T
      · subst hk
        have hTr : k ∉ rest := (List.nodup_cons.1 hnd).1
        rcases hc with rfl | hc0
        · rw [pickMostFrequent, if_neg (lt_irrefl _), if_pos rfl]
          by_cases hf : flips n
          · rw [if_pos hf, pickMostFrequent_keep count flips rest _ _ (hrest_lt hTr)]
          · rw [if_neg hf, pickMostFrequent_keep count flips rest _ _ (hrest_lt hTr)]
        · have hlt : count c < count k := by rw [hc0]; exact hpos
          rw [pickMostFrequent, if_pos hlt,
            pickMostFrequent_keep count flips rest _ _ (hrest_lt hTr)]
      · have hk0 : count k = 0 := hz k hk
        have hTr : T ∈ rest := by
          rcases List.mem_cons.1 hT with rfl | h
          · exact absurd rfl hk
          · exact h
        have hnd2 := (List.nodup_cons.1 hnd).2
        rcases hc with rfl | hc0
        · rw [pickMostFrequent, if_neg (by omega), if_neg (by omega)]
          exact ih c n hnd2 hTr hpos hz (Or.inl rfl)
        · rw [pickMostFrequent, if_neg (by omega), if_pos (by omega)]
          by_cases hf : flips n
          · rw [if_pos hf]
            exact ih k (n + 1) hnd2 hTr hpos hz (Or.inr hk0)
          · rw [if_neg hf]
            exact ih c (n + 1) hnd2 hTr hpos hz (Or.inr hc0)

theorem headD_mem {α : Type} (l : List α) (d : α) (h : l ≠ []) : l.headD d ∈ l := by
  cases l with
  | nil => exact absurd rfl h
  | cons a rest => exact List.mem_cons_self ..

theorem set_to_neighbor_type_uniform (neighbors : List String)
    (tiles : List String) (flips : Nat → Bool) (n : Nat) (T : String)
    (hT : T ∈ tiles) (hnb : neighbors ≠ []) (hall : ∀ x ∈ neighbors, x = T) :
    (set_to_neighbor_type neighbors tiles flips n).1 = T := by
  rw [set_to_neighbor_type]
  have hcT : neighbors.count T = neighbors.length :=
    List.count_eq_length.2 (fun b hb => (hall b hb).symm)
  have hpos : 0 < neighbors.count T := by
    rw [hcT]
    exact List.length_pos.2 hnb
  have hz : ∀ k, k ≠ T → neighbors.count k = 0 := by
    intro k hk
    rw [List.count_eq_zero]
    intro hmem
    exact hk (hall k hmem)
  have hkeys : T ∈ firstDedup tiles := (mem_firstDedup tiles T).2 hT
  have hkeysne : firstDedup tiles ≠ [] := fun he => by rw [he] at hkeys; cases hkeys
  apply pickMostFrequent_const _ flips T _ _ _ (nodup_firstDedup tiles) hkeys hpos hz
  by_cases hh : (firstDedup tiles).headD "0" = T
  · exact Or.inl hh
  · exact Or.inr (hz _ hh)

theorem smooth_step_uniform (tiles : List String) (flips : Nat → Bool)
    (T : String) (hT : T ∈ tiles) (st : Grid × Nat) (c : Nat × Nat)
    (hw : 2 ≤ st.1.width) (hh : 2 ≤ st.1.height) (hu : uniformOn st.1 T) :
    uniformOn (smooth_step tiles flips st c).1 T := by
  intro i j hi hj
  rw [smooth_step] at hi hj ⊢
  by_cases hc : i = c.1 ∧ j = c.2
  · have hmem := mem_get_neighbor_vals_bounds st.1.width st.1.height st.1.cell
      c.1 c.2 hw hh (hc.1 ▸ hi) (hc.2 ▸ hj)
    have hall : ∀ x ∈ get_neighbor_vals st.1.width st.1.height st.1.cell c.1 c.2,
        x = T := by
      intro x hx
      obtain ⟨a, b, ha, hb, rfl⟩ := hmem x hx
      exact hu a b ha hb
    show (GridOf.set _ _ _ _).cell i j = T
    rw [GridOf.set]
    simp only [if_pos hc]
    exact set_to_neighbor_type_uniform _ tiles flips st.2 T hT
      (get_neighbor_vals_ne_nil _ _ _ _ _) hall
  · show (GridOf.set _ _ _ _).cell i j = T
    rw [GridOf.set_cell_ne _ _ _ _ _ _ hc]
    exact hu i j hi hj

theorem foldl_smooth_uniform (tiles : List String) (flips : Nat → Bool)
    (T : String) (hT : T ∈ tiles) :
    ∀ (order : List (Nat × Nat)) (st : Grid × Nat),
      2 ≤ st.1.width → 2 ≤ st.1.height → uniformOn st.1 T →
      uniformOn (order.foldl (smooth_step tiles flips) st).1 T ∧
      (order.foldl (smooth_step tiles flips) st).1.width = st.1.width ∧
      (order.foldl (smooth_step tiles flips) st).1.height = st.1.height := by
  intro order
  induction order with
  | nil => intro st hw hh hu; exact ⟨hu, rfl, rfl⟩
  | cons c rest ih =>
      intro st hw hh hu
      have hstep := smooth_step_uniform tiles flips T hT st c hw hh hu
      have := ih (smooth_step tiles flips st c) hw hh hstep
      exact ⟨this.1, this.2.1, this.2.2⟩

/-- C9: on a grid in which every cell holds the same tile type `T`, with
both dimensions at least 2 and `T` among the supplied tile types, one
smoothing pass leaves every cell unchanged — for every visit order and
every outcome of the random tie-break coin flips, since at every visited
cell `T` holds a strictly positive neighbor count while every other known
type counts 0, so no tie flip can displace it. -/
theorem C9_smooth_uniform_noop (s : TerrainState) (tile_types : List String)
    (T : String) (order : List (Nat × Nat)) (flips : Nat → Bool)
    (hT : T ∈ tile_types)
    (hw : 2 ≤ s.base_layer.width) (hh : 2 ≤ s.base_layer.height)
    (hu : ∀ i, i < s.base_layer.width → ∀ j, j < s.base_layer.height →
      s.base_layer.cell i j = T) :
    ∀ i j, i < s.base_layer.width → j < s.base_layer.height →
      (smooth_base_layer s tile_types order flips).base_layer.cell i j
        = s.base_layer.cell i j := by
  intro i j hi hj
  have hu2 : uniformOn s.base_layer T := fun a b ha hb => hu a ha b hb
  rw [smooth_base_layer]
  by_cases h1 : s.tiles = []
  · rw [if_pos h1]
  · rw [if_neg h1]
    by_cases h2 : s.terrain_width = 1 ∨ s.terrain_height = 1
    · rw [if_pos h2]
    · rw [if_neg h2]
      have hfold := foldl_smooth_uniform tile_types flips T hT order
        (s.base_layer, 0) hw hh hu2
      show (smoothPass s.base_layer tile_types order flips).1.cell i j
          = s.base_layer.cell i j
      rw [smoothPass]
      rw [hfold.1 i j (by rw [hfold.2.1]; exact hi) (by rw [hfold.2.2]; exact hj),
        hu2 i j hi hj]

theorem C9_smooth_uniform_noop_witness :
    ("1" ∈ ["1", "2"]) ∧ 2 ≤ stateC9.base_layer.width ∧
    (smooth_base_layer stateC9 ["1", "2"] [(0, 0), (0, 1), (1, 0), (1, 1)]
        (fun _ => true)).base_layer.cell 0 0 = stateC9.base_layer.cell 0 0 :=
  ⟨by decide, by decide,
    C9_smooth_uniform_noop stateC9 ["1", "2"] "1"
      [(0, 0), (0, 1), (1, 0), (1, 1)] (fun _ => true)
      (by decide) (by decide) (by decide) (by decide)
      0 0 (by decide) (by decide)⟩

theorem diffuse_cell_nonneg (g : QGrid) (a b : Nat) (h : nonnegQ g) :
    nonnegQ (diffuse_cell g a b) := by
  intro i j
  rw [diffuse_cell]
  by_cases hz : g.cell a b = 0
  · rw [if_pos hz]; exact h i j
  · rw [if_neg hz]
    by_cases hij : i = a ∧ j = b
    · show (0 : ℚ) ≤ (GridOf.set _ _ _ _).cell i j
      rw [GridOf.set]
      simp only [if_pos hij]
      apply div_nonneg
      · apply List.sum_nonneg
        intro x hx
        rcases List.mem_append.1 hx with hx | hx
        · obtain ⟨a2, b2, rfl⟩ := mem_get_neighbor_vals _ _ _ _ _ x hx
          exact h a2 b2
        · rw [List.mem_singleton.1 hx]
          exact h a b
      · exact Nat.cast_nonneg _
    · rw [GridOf.set_cell_ne _ _ _ _ _ _ hij]
      exact h i j

theorem foldl_diffuse_nonneg (l : List (Nat × Nat)) :
    ∀ g : QGrid, nonnegQ g →
      nonnegQ (l.foldl (fun cur c => diffuse_cell cur c.1 c.2) g) := by
  induction l with
  | nil => intro g h; exact h
  | cons c rest ih => intro g h; exact ih _ (diffuse_cell_nonneg g c.1 c.2 h)

theorem iterateN_diffuse_nonneg (n : Nat) :
    ∀ g : QGrid, nonnegQ g → nonnegQ (iterateN diffuse_pass n g) := by
  induction n with
  | zero => intro g h; exact h
  | succ m ih => intro g h; exact ih _ (foldl_diffuse_nonneg _ g h)

theorem pytrunc_nonneg (q : ℚ) (h : 0 ≤ q) : 0 ≤ pytrunc q := by
  rw [pytrunc]
  apply Int.tdiv_nonneg
  · exact Rat.num_nonneg.2 h
  · exact_mod_cast Nat.zero_le _

theorem generate_heightmap_nonneg (t : Grid) (sym : String) (e it : Int)
    (he : 0 ≤ e) : ∀ i j, 0 ≤ (generate_heightmap t sym e it).cell i j := by
  intro i j
  rw [generate_heightmap]
  apply pytrunc_nonneg
  apply iterateN_diffuse_nonneg
  intro a b
  show (0 : ℚ) ≤ if t.cell a b = sym then (e : ℚ) else 0
  by_cases hc : t.cell a b = sym
  · rw [if_pos hc]; exact_mod_cast he
  · rw [if_neg hc]

theorem gridMaxZ_nonneg (g : ZGrid) (hw : 1 ≤ g.width) (hh : 1 ≤ g.height)
    (h : ∀ i j, 0 ≤ g.cell i j) : 0 ≤ gridMaxZ g := by
  have hmem : g.cell 0 0 ∈ cellsZ g := by
    rw [cellsZ]
    have h00 : ((0, 0) : Nat × Nat) ∈ allCoords g.width g.height :=
      mem_allCoords.2 ⟨by omega, by omega⟩
    exact List.mem_map_of_mem _ h00
  exact le_trans (h 0 0) (le_listMaxZ_of_mem hmem)

theorem generate_tiles_heightmap (s : TerrainState) :
    (generate_tiles s).heightmap = s.heightmap := rfl

theorem generate_tiles_terrain (s : TerrainState) :
    (generate_tiles s).terrain = s.terrain := rfl

theorem generate_tiles_elevation (s : TerrainState) :
    (generate_tiles s).elevation = s.elevation := rfl

theorem generate_tiles_base_layer (s : TerrainState) :
    (generate_tiles s).base_layer = s.base_layer := rfl

/-- C6: after a `generate_elevation` call that passes every precondition
check and runs to completion (nonempty stack, terrain dimensions matching
the base layer), the stored elevation equals the maximum
value of the final (truncated) heightmap — which may be less than the
requested elevation — and the terrain stack holds exactly `1 + that maximum`
layers: the base layer plus one layer per elevation level. -/
theorem C6_corrected_elevation (s : TerrainState)
    (h1 : s.tiles ≠ []) (h2 : s.elevation_symbol ≠ none)
    (h3 : ¬(s.terrain_width = 1 ∨ s.terrain_height = 1))
    (h4 : ¬(s.elevation ≤ 0 ∨ s.elevation_iterations < 0))
    (h5 : 1 ≤ s.base_layer.width) (h6 : 1 ≤ s.base_layer.height)
    (h7 : s.terrain ≠ [])
    (h8 : s.base_layer.width = s.terrain_width.toNat)
    (h9 : s.base_layer.height = s.terrain_height.toNat) :
    ∃ hm : ZGrid, (generate_elevation s).heightmap = some hm ∧
      (generate_elevation s).elevation = gridMaxZ hm ∧
      0 ≤ (generate_elevation s).elevation ∧
      (generate_elevation s).terrain.length
        = 1 + ((generate_elevation s).elevation).toNat := by
  push_neg at h4
  have hepos : 0 < s.elevation := h4.1
  rw [generate_elevation, if_neg h1, if_neg h2, if_neg h3,
    if_neg (by push_neg; exact h4)]
  refine ⟨generate_heightmap s.base_layer (s.elevation_symbol.getD "0")
    s.elevation s.elevation_iterations, rfl, rfl, ?_, ?_⟩
  · show (0 : Int) ≤ gridMaxZ _
    exact gridMaxZ_nonneg _ h5 h6
      (generate_heightmap_nonneg _ _ _ _ (le_of_lt hepos))
  · show (s.terrain.headD grid_default ::
        (List.range (gridMaxZ (generate_heightmap s.base_layer
            (s.elevation_symbol.getD "0") s.elevation
            s.elevation_iterations)).toNat).map _).length
      = 1 + (gridMaxZ (generate_heightmap s.base_layer
            (s.elevation_symbol.getD "0") s.elevation
            s.elevation_iterations)).toNat
    rw [List.length_cons, List.length_map, List.length_range]
    omega

theorem C6_corrected_elevation_witness :
    stateC6.tiles ≠ [] ∧ stateC6.elevation_symbol ≠ none ∧
    (∃ hm : ZGrid, (generate_elevation stateC6).heightmap = some hm ∧
      (generate_elevation stateC6).elevation = gridMaxZ hm ∧
      0 ≤ (generate_elevation stateC6).elevation ∧
      (generate_elevation stateC6).terrain.length
        = 1 + ((generate_elevation stateC6).elevation).toNat) :=
  ⟨by decide, by decide,
    C6_corrected_elevation stateC6 (by decide) (by decide) (by decide)
      (by decide) (by decide) (by decide) (List.cons_ne_nil _ _)
      (by decide) (by decide)⟩

/-- C7: after a successful, completed `generate_elevation`, for every level `L` between
1 and the corrected elevation maximum, the elevation layer for level `L`
holds the marker type at `(r, c)` exactly when the heightmap value there is
at least `L`, and EMPTY ("0") otherwise — the layer for level `L` sits at
stack index `L` and tests `heightmap > L - 1`. -/
theorem C7_layer_occupancy (s : TerrainState) (sym : String)
    (hsym : s.elevation_symbol = some sym)
    (h1 : s.tiles ≠ [])
    (h3 : ¬(s.terrain_width = 1 ∨ s.terrain_height = 1))
    (h4 : ¬(s.elevation ≤ 0 ∨ s.elevation_iterations < 0))
    (h5 : s.terrain ≠ [])
    (h6 : s.base_layer.width = s.terrain_width.toNat)
    (h7 : s.base_layer.height = s.terrain_height.toNat)
    (L : Nat) (hL : 1 ≤ L) (hm : ZGrid)
    (hhm : (generate_elevation s).heightmap = some hm)
    (hLe : (L : Int) ≤ (generate_elevation s).elevation)
    (r c : Nat) (hr : r < s.terrain_width.toNat) (hc : c < s.terrain_height.toNat) :
    ((generate_elevation s).terrain.getD L grid_default).cell r c
      = if (L : Int) ≤ hm.cell r c then sym else "0" := by
  have h2 : ¬(some sym = (none : Option String)) := by simp
  simp only [generate_elevation, hsym, Option.getD_some, if_neg h1, if_neg h2,
    if_neg h3, if_neg h4, generate_tiles_heightmap, generate_tiles_terrain,
    generate_tiles_elevation] at hhm hLe ⊢
  rw [Option.some.injEq] at hhm
  subst hhm
  obtain ⟨L2, rfl⟩ : ∃ L2, L = L2 + 1 := ⟨L - 1, by omega⟩
  rw [List.getD_cons_succ]
  have hLb : L2 <
      (gridMaxZ (generate_heightmap s.base_layer sym s.elevation
        s.elevation_iterations)).toNat := by
    omega
  rw [List.getD_eq_getElem _ _ (by simpa using hLb)]
  simp only [List.getElem_map, List.getElem_range]
  show (if ((L2 : Nat) : Int) < (generate_heightmap s.base_layer sym s.elevation
      s.elevation_iterations).cell r c then sym else "0") = _
  by_cases hv : ((L2 : Nat) : Int) < (generate_heightmap s.base_layer sym
      s.elevation s.elevation_iterations).cell r c
  · rw [if_pos hv, if_pos (by push_cast; omega)]
  · rw [if_neg hv, if_neg (by push_cast; omega)]

theorem C7_layer_occupancy_witness :
    stateC7.elevation_symbol = some "1" ∧
    (1 : Int) ≤ (generate_elevation stateC7).elevation ∧
    ((generate_elevation stateC7).terrain.getD 1 grid_default).cell 0 0
      = if (1 : Int) ≤ hmC7.cell 0 0 then "1" else "0" :=
  ⟨rfl, by decide,
    C7_layer_occupancy stateC7 "1" rfl (by decide) (by decide) (by decide)
      (List.cons_ne_nil _ _) (by decide) (by decide)
      1 (by decide) hmC7 rfl (by decide) 0 0 (by decide) (by decide)⟩

/-- C2 counterexample: starting from a generated 3×3 base layer, shrinking
`terrain_width`/`terrain_height` to 2×2 through `update_terrain_info` and
then calling `generate_elevation` leaves the kept base layer 3×3 while the
new elevation layer is built 2×2: the resulting stack holds grids of two
different shapes, violating the claimed invariant in exactly the resize
scenario the claim asserts to be safe. -/
theorem C2_counterexample :
    (generate_elevation (update_terrain_info stateC2 2 2 10 10 5 1 0)).terrain.map
        grid_dims = [(3, 3), (2, 2)] ∧
    ((3, 3) : Nat × Nat) ≠ (2, 2) ∧
    ¬ dims_ok (generate_elevation (update_terrain_info stateC2 2 2 10 10 5 1 0)) := by
  decide

theorem terrain_set_cell_map_dims (tr : List Grid) :
    ∀ (n : Nat) (idx : Nat × Nat) (v : String),
      (terrain_set_cell tr n idx v).map grid_dims = tr.map grid_dims := by
  induction tr with
  | nil => intro n idx v; rfl
  | cons a rest ih =>
      intro n idx v
      cases n with
      | zero => simp [terrain_set_cell, grid_dims, GridOf.set]
      | succ m =>
          have hthis := ih m idx v
          simp only [terrain_set_cell, List.getD_cons_succ, List.set_cons_succ,
            List.map_cons, List.map_set] at hthis ⊢
          rw [hthis]

theorem delete_loop_map_dims :
    ∀ (fuel i : Nat) (ts : List PyTile) (tr : List Grid) (sel : List PyTile),
      ((delete_loop fuel i ts tr sel).2.1).map grid_dims = tr.map grid_dims := by
  intro fuel
  induction fuel with
  | zero => intro i ts tr sel; rfl
  | succ f ih =>
      intro i ts tr sel
      cases hget : sel.get? i with
      | none => rw [delete_loop, hget]
      | some tile =>
          have hred : delete_loop (f + 1) i ts tr sel =
              if 1 < tile.elevation then
                delete_loop f (i + 1)
                  (py_filter_remove_loop
                    (fun t2 => t2.index == tile.index && t2.elevation == tile.elevation)
                    (ts.length + 1) 0 ts)
                  (terrain_set_cell tr (tile.elevation - 1).toNat tile.index "0")
                  (sel.erase tile)
              else delete_loop f (i + 1) ts tr sel := by
            rw [delete_loop, hget]
          rw [hred]
          by_cases he : 1 < tile.elevation
          · rw [if_pos he, ih]
            exact terrain_set_cell_map_dims tr _ _ _
          · rw [if_neg he]
            exact ih _ _ _ _

theorem foldl_set_cell_map_dims (ty : String) (sel : List PyTile) :
    ∀ tr : List Grid,
      (sel.foldl (fun tr t =>
        terrain_set_cell tr (t.elevation - 1).toNat t.index ty) tr).map grid_dims
      = tr.map grid_dims := by
  induction sel with
  | nil => intro tr; rfl
  | cons t rest ih =>
      intro tr
      rw [List.foldl_cons, ih, terrain_set_cell_map_dims]

theorem all_dims_of_map_eq {tr tr2 : List Grid} {D : Nat × Nat}
    (hmap : tr2.map grid_dims = tr.map grid_dims)
    (h : ∀ g ∈ tr, grid_dims g = D) : ∀ g ∈ tr2, grid_dims g = D := by
  intro g hg
  have hmem : grid_dims g ∈ tr2.map grid_dims := List.mem_map_of_mem _ hg
  rw [hmap] at hmem
  obtain ⟨g0, hg0, he⟩ := List.mem_map.1 hmem
  rw [← he]
  exact h g0 hg0

/-- C2 amended: the dimension invariant holds across every public operation
provided `terrain_width`/`terrain_height` still agree with the base layer's
actual dimensions when `generate_elevation` is called — i.e. they have not
been changed through `update_terrain_info` since the base layer was built.
Base-layer generation and smoothing rebuild a one-grid stack; deletion,
retyping and parameter updates preserve every grid's shape; elevation
generation keeps the stack uniform exactly under that agreement (the
counterexample shows it fails otherwise). -/
theorem C2_dims_amended (s : TerrainState)
    (hW : s.base_layer.width = s.terrain_width.toNat)
    (hH : s.base_layer.height = s.terrain_height.toNat)
    (hne : s.terrain ≠ [])
    (hok : dims_ok s) :
    dims_ok (generate_elevation s) ∧
    (∀ probs draws s2, generate_base_layer s probs draws = some s2 → dims_ok s2) ∧
    (∀ tys order flips, dims_ok (smooth_base_layer s tys order flips)) ∧
    dims_ok (delete_tiles s) ∧
    (∀ ty, dims_ok (change_selected_tile_type s ty)) ∧
    (∀ a b c2 d2 e2 f2 g2, dims_ok (update_terrain_info s a b c2 d2 e2 f2 g2)) := by
  refine ⟨?_, ?_, ?_, ?_, ?_, ?_⟩
  · by_cases g1 : s.tiles = []
    · rw [generate_elevation, if_pos g1]; exact hok
    · by_cases g2 : s.elevation_symbol = none
      · rw [generate_elevation, if_neg g1, if_pos g2]; exact hok
      · by_cases g3 : s.terrain_width = 1 ∨ s.terrain_height = 1
        · rw [generate_elevation, if_neg g1, if_neg g2, if_pos g3]; exact hok
        · by_cases g4 : s.elevation ≤ 0 ∨ s.elevation_iterations < 0
          · rw [generate_elevation, if_neg g1, if_neg g2, if_neg g3, if_pos g4]
            exact hok
          · rw [generate_elevation, if_neg g1, if_neg g2, if_neg g3, if_neg g4]
            intro g hg
            show grid_dims g = grid_dims s.base_layer
            rcases List.mem_cons.1 hg with rfl | hmem
            · exact hok _ (headD_mem s.terrain grid_default hne)
            · obtain ⟨i, hi, rfl⟩ := List.mem_map.1 hmem
              show ((s.terrain_width.toNat, s.terrain_height.toNat) : Nat × Nat)
                = grid_dims s.base_layer
              rw [grid_dims, hW, hH]
  · intro probs draws s2 hs2
    rw [generate_base_layer] at hs2
    by_cases hneg : s.terrain_height < 0 ∨ s.terrain_width < 0
    · rw [if_pos hneg] at hs2
      obtain rfl := Option.some.inj hs2
      exact hok
    · rw [if_neg hneg] at hs2
      by_cases hbc : base_cells_ok s.terrain_width.toNat s.terrain_height.toNat
          probs draws
      · rw [if_pos hbc] at hs2
        obtain rfl := Option.some.inj hs2
        intro g hg
        rcases List.mem_cons.1 hg with rfl | hmem
        · rfl
        · cases hmem
      · rw [if_neg hbc] at hs2
        cases hs2
  · intro tys order flips
    rw [smooth_base_layer]
    split_ifs with g1 g2
    · exact hok
    · exact hok
    · intro g hg
      rcases List.mem_cons.1 hg with rfl | hmem
      · rfl
      · cases hmem
  · intro g hg
    have hmap := delete_loop_map_dims (s.selected_tiles.length + 1) 0 s.tiles
      s.terrain s.selected_tiles
    exact all_dims_of_map_eq hmap hok g hg
  · intro ty
    rw [change_selected_tile_type]
    by_cases hsel : s.selected_tiles = []
    · rw [if_pos hsel]; exact hok
    · rw [if_neg hsel]
      intro g hg
      have hmap := foldl_set_cell_map_dims ty s.selected_tiles s.terrain
      have hall := all_dims_of_map_eq hmap hok
      have hg2 : g ∈ s.selected_tiles.foldl
          (fun tr t => terrain_set_cell tr (t.elevation - 1).toNat t.index ty)
          s.terrain := hg
      have hne2 := List.ne_nil_of_mem hg2
      have hhead := hall _ (headD_mem _ s.base_layer hne2)
      show grid_dims g = grid_dims ((s.selected_tiles.foldl
          (fun tr t => terrain_set_cell tr (t.elevation - 1).toNat t.index ty)
          s.terrain).headD s.base_layer)
      rw [hall g hg2, hhead]
  · intro a b c2 d2 e2 f2 g2
    exact hok

theorem C2_dims_amended_witness :
    stateC2.base_layer.width = stateC2.terrain_width.toNat ∧
    stateC2.terrain ≠ [] ∧ dims_ok stateC2 ∧
    dims_ok (generate_elevation stateC2) :=
  ⟨by decide, List.cons_ne_nil _ _, by decide,
    (C2_dims_amended stateC2 (by decide) (by decide)
      (List.cons_ne_nil _ _) (by decide)).1⟩
